import Mathlib

/-!
Verification of the FreeRTOS event-group engine (`src/event_groups.c`).

The C module is shallowly embedded: the event-group state is a structure
holding the `EventBits_t` word (a 32-bit unsigned integer, modelled as `Nat`),
the insertion-ordered list of blocked-waiter records, and the static-allocation
tag.  Each C function is translated into a pure Lean function that returns the
updated state together with the value the C function returns and the
scheduler-visible side effects (waiters removed from the event list with their
outcome values).  The scheduler, list container and deferred-call queue are
external collaborators in the C code; their effect on the event group is
exactly the insertion/removal of list items performed here.
-/

namespace EventGroups

/-- Modelled from the spec: `event_groups.h` is not part of the provided
sources.  `EventBits_t` is the platform word (32 bits here); the top 8 bits are
the reserved control-byte region (`eventEVENT_BITS_CONTROL_BYTES`), inside
which the three kernel flags live.  Flag marking that a waiter asked for its
matched bits to be cleared when it is released. -/
def eventCLEAR_EVENTS_ON_EXIT_BIT : Nat := 0x01000000

/-- Modelled from the spec: marker OR'd into a woken waiter's event-item value
so the task can tell a wake-by-match from a timeout. -/
def eventUNBLOCKED_DUE_TO_BIT_SET : Nat := 0x02000000

/-- Modelled from the spec: flag selecting wait-for-ALL (vs wait-for-ANY)
semantics in a waiter's packed event-item value. -/
def eventWAIT_FOR_ALL_BITS : Nat := 0x04000000

/-- Modelled from the spec: the reserved control-byte region, the top 8 bits
of the 32-bit event-bits word; user masks must never intersect it. -/
def eventEVENT_BITS_CONTROL_BYTES : Nat := 0xff000000

/-- C bitwise complement `~m` at the 32-bit width of `EventBits_t`:
for `m < 2 ^ 32` this is the ones' complement of `m`. -/
def cNot (m : Nat) : Nat := 2 ^ 32 - (m + 1)

/-- A blocked-waiter record as the event group sees it: the value stored in
the task's event list item by `vTaskPlaceOnUnorderedEventList`, i.e. the wait
mask OR'd with the control flags (`listGET_LIST_ITEM_VALUE`). -/
structure Waiter where
  itemValue : Nat
deriving DecidableEq, Repr

/-- The `EventGroup_t` structure: the event-bits word, the insertion-ordered
`xTasksWaitingForBits` list, and the allocation-provenance tag. -/
structure EventGroup where
  uxEventBits : Nat
  xTasksWaitingForBits : List Waiter
  ucStaticallyAllocated : Bool
deriving DecidableEq, Repr

/-- `prvTestWaitCondition` from `event_groups.c`: with `xWaitForAllBits`
false the condition is met when any wanted bit is set, otherwise when all
wanted bits are set. -/
def prvTestWaitCondition (uxCurrentEventBits uxBitsToWaitFor : Nat)
    (xWaitForAllBits : Bool) : Bool :=
  if xWaitForAllBits = false then
    decide ((uxCurrentEventBits &&& uxBitsToWaitFor) ≠ 0)
  else
    decide ((uxCurrentEventBits &&& uxBitsToWaitFor) = uxBitsToWaitFor)

/-- `xEventGroupClearBits`: inside a critical section, snapshot the event
bits, clear `uxBitsToClear`, and return the pre-clear snapshot.  The waiter
list is not touched. -/
def xEventGroupClearBits (eg : EventGroup) (uxBitsToClear : Nat) :
    EventGroup × Nat :=
  let uxReturn := eg.uxEventBits
  ({ eg with uxEventBits := eg.uxEventBits &&& cNot uxBitsToClear }, uxReturn)

theorem cNot_comm_and (x m : Nat) : x &&& cNot m = x &&& cNot m := rfl

/-- For values below `2 ^ 32`, `cNot` is the bitwise ones' complement on the
first 32 bits. -/
theorem testBit_cNot {m : Nat} (hm : m < 2 ^ 32) (i : Nat) :
    (cNot m).testBit i = (decide (i < 32) && !(m.testBit i)) :=
  Nat.testBit_two_pow_sub_succ hm i

/-- Clearing bits that are not set leaves the word unchanged
(`x &&& cNot m = x` when `x &&& m = 0` and `x` fits in the word). -/
theorem and_cNot_of_disjoint {x m : Nat} (hx : x < 2 ^ 32) (hm : m < 2 ^ 32)
    (h : x &&& m = 0) : x &&& cNot m = x := by
  apply Nat.eq_of_testBit_eq
  intro i
  have hi := congrArg (fun t => t.testBit i) h
  simp only [Nat.testBit_and, Nat.zero_testBit] at hi
  by_cases hlt : i < 32
  · simp only [Nat.testBit_and, testBit_cNot hm i, hlt, decide_eq_true_eq,
      Bool.true_and, decide_True]
    cases hx2 : x.testBit i <;> cases hm2 : m.testBit i <;> simp_all
  · have hle : 2 ^ 32 ≤ 2 ^ i := Nat.pow_le_pow_right (by omega) (by omega)
    have : x.testBit i = false := Nat.testBit_lt_two_pow (Nat.lt_of_lt_of_le hx hle)
    simp [Nat.testBit_and, this]

/-- C5: `prvTestWaitCondition` is a pure total function: in ALL mode it holds
exactly when `current &&& wanted = wanted`, and in ANY mode exactly when
`current &&& wanted ≠ 0`. -/
theorem prvTestWaitCondition_spec (current wanted : Nat) :
    (prvTestWaitCondition current wanted true = true ↔
      current &&& wanted = wanted) ∧
    (prvTestWaitCondition current wanted false = true ↔
      current &&& wanted ≠ 0) := by
  constructor
  · simp [prvTestWaitCondition]
  · simp [prvTestWaitCondition]

/-- C8: `xEventGroupClearBits` returns the pre-clear bit value, sets the bits
to `oldBits &&& cNot toClear`, and leaves the waiter list (and the allocation
tag) unchanged; when no bit of `toClear` is set the bits are unchanged and the
returned snapshot equals the current bits. -/
theorem xEventGroupClearBits_spec (eg : EventGroup) (uxBitsToClear : Nat)
    (hw : eg.uxEventBits < 2 ^ 32) (hc : uxBitsToClear < 2 ^ 32)
    (_hctl : uxBitsToClear &&& eventEVENT_BITS_CONTROL_BYTES = 0) :
    (xEventGroupClearBits eg uxBitsToClear).2 = eg.uxEventBits ∧
    (xEventGroupClearBits eg uxBitsToClear).1.uxEventBits =
      eg.uxEventBits &&& cNot uxBitsToClear ∧
    (xEventGroupClearBits eg uxBitsToClear).1.xTasksWaitingForBits =
      eg.xTasksWaitingForBits ∧
    (xEventGroupClearBits eg uxBitsToClear).1.ucStaticallyAllocated =
      eg.ucStaticallyAllocated ∧
    (eg.uxEventBits &&& uxBitsToClear = 0 →
      (xEventGroupClearBits eg uxBitsToClear).1.uxEventBits = eg.uxEventBits) := by
  refine ⟨rfl, rfl, rfl, rfl, fun h0 => ?_⟩
  exact and_cNot_of_disjoint hw hc h0

/-- Witness for C8 at a concrete group: bits `0b100`, clearing `0b001`. -/
theorem xEventGroupClearBits_spec_witness :
    (xEventGroupClearBits ⟨4, [], false⟩ 1).2 = 4 ∧
    (xEventGroupClearBits ⟨4, [], false⟩ 1).1.uxEventBits = 4 &&& cNot 1 ∧
    (xEventGroupClearBits ⟨4, [], false⟩ 1).1.xTasksWaitingForBits = [] ∧
    (xEventGroupClearBits ⟨4, [], false⟩ 1).1.ucStaticallyAllocated = false ∧
    ((4 : Nat) &&& 1 = 0 →
      (xEventGroupClearBits ⟨4, [], false⟩ 1).1.uxEventBits = 4) :=
  xEventGroupClearBits_spec ⟨4, [], false⟩ 1 (by decide) (by decide) (by decide)

/-- The waiter-list scan loop of `xEventGroupSetBits`: `uxEventBits` is the
already-updated bit word (it is not mutated during the loop), `uxBitsToClear`
the clear-mask accumulator.  Returns the waiters left on the list, the waiters
removed by `vTaskRemoveFromUnorderedEventList` paired with the outcome value
stored into their event item, and the final accumulated clear mask. -/
def prvSetBitsScan (uxEventBits uxBitsToClear : Nat) :
    List Waiter → List Waiter × List (Waiter × Nat) × Nat
  | [] => ([], [], uxBitsToClear)
  | w :: rest =>
    let uxControlBits := w.itemValue &&& eventEVENT_BITS_CONTROL_BYTES
    let uxBitsWaitedFor := w.itemValue &&& cNot eventEVENT_BITS_CONTROL_BYTES
    let xMatchFound : Bool :=
      if uxControlBits &&& eventWAIT_FOR_ALL_BITS = 0 then
        decide ((uxBitsWaitedFor &&& uxEventBits) ≠ 0)
      else
        decide ((uxBitsWaitedFor &&& uxEventBits) = uxBitsWaitedFor)
    if xMatchFound then
      let uxBitsToClearNext :=
        if uxControlBits &&& eventCLEAR_EVENTS_ON_EXIT_BIT ≠ 0 then
          uxBitsToClear ||| uxBitsWaitedFor
        else
          uxBitsToClear
      let r := prvSetBitsScan uxEventBits uxBitsToClearNext rest
      (r.1, (w, uxEventBits ||| eventUNBLOCKED_DUE_TO_BIT_SET) :: r.2.1, r.2.2)
    else
      let r := prvSetBitsScan uxEventBits uxBitsToClear rest
      (w :: r.1, r.2.1, r.2.2)

/-- `xEventGroupSetBits`: OR the new bits in, scan the waiter list once, then
clear the accumulated clear-on-exit masks and return the resulting snapshot.
Result: (updated group, woken waiters with outcome values, returned value). -/
def xEventGroupSetBits (eg : EventGroup) (uxBitsToSet : Nat) :
    EventGroup × List (Waiter × Nat) × Nat :=
  let bits := eg.uxEventBits ||| uxBitsToSet
  let scan := prvSetBitsScan bits 0 eg.xTasksWaitingForBits
  let finalBits := bits &&& cNot scan.2.2
  ({ eg with uxEventBits := finalBits, xTasksWaitingForBits := scan.1 },
   scan.2.1, finalBits)

/-- The real wait mask of a blocked-waiter record: its event-item value with
the control-byte region stripped. -/
def waiterWaitMask (w : Waiter) : Nat :=
  w.itemValue &&& cNot eventEVENT_BITS_CONTROL_BYTES

/-- Whether a blocked-waiter record asked for wait-for-ALL semantics. -/
def waiterWaitForAll (w : Waiter) : Bool :=
  decide ((w.itemValue &&& eventWAIT_FOR_ALL_BITS) ≠ 0)

/-- Whether a blocked-waiter record asked for clear-on-exit. -/
def waiterClearOnExit (w : Waiter) : Bool :=
  decide ((w.itemValue &&& eventCLEAR_EVENTS_ON_EXIT_BIT) ≠ 0)

/-- A waiter's decoded wait condition, evaluated against a bit word. -/
def waiterMatches (bits : Nat) (w : Waiter) : Bool :=
  prvTestWaitCondition bits (waiterWaitMask w) (waiterWaitForAll w)

/-- The clear mask accumulated over a waiter list: the union of the wait masks
of those waiters that match `bits` and asked for clear-on-exit. -/
def pendingClearOf (bits : Nat) (ws : List Waiter) : Nat :=
  (ws.filter (fun w => waiterMatches bits w && waiterClearOnExit w)).foldl
    (fun a w => a ||| waiterWaitMask w) 0

theorem control_and_waitAll :
    eventEVENT_BITS_CONTROL_BYTES &&& eventWAIT_FOR_ALL_BITS =
      eventWAIT_FOR_ALL_BITS := by decide

theorem control_and_clear :
    eventEVENT_BITS_CONTROL_BYTES &&& eventCLEAR_EVENTS_ON_EXIT_BIT =
      eventCLEAR_EVENTS_ON_EXIT_BIT := by decide

/-- The inline match test of the scan loop equals the decoded wait condition
of the waiter. -/
theorem matchCond_eq (bits : Nat) (w : Waiter) :
    (if (w.itemValue &&& eventEVENT_BITS_CONTROL_BYTES) &&&
          eventWAIT_FOR_ALL_BITS = 0 then
       decide (((w.itemValue &&& cNot eventEVENT_BITS_CONTROL_BYTES) &&& bits) ≠ 0)
     else
       decide (((w.itemValue &&& cNot eventEVENT_BITS_CONTROL_BYTES) &&& bits) =
         (w.itemValue &&& cNot eventEVENT_BITS_CONTROL_BYTES))) =
      waiterMatches bits w := by
  have h1 : (w.itemValue &&& eventEVENT_BITS_CONTROL_BYTES) &&&
      eventWAIT_FOR_ALL_BITS = w.itemValue &&& eventWAIT_FOR_ALL_BITS := by
    rw [Nat.and_assoc, control_and_waitAll]
  have h2 : (w.itemValue &&& cNot eventEVENT_BITS_CONTROL_BYTES) &&& bits =
      bits &&& (w.itemValue &&& cNot eventEVENT_BITS_CONTROL_BYTES) :=
    Nat.and_comm _ _
  rw [h1, h2]
  unfold waiterMatches prvTestWaitCondition waiterWaitForAll waiterWaitMask
  by_cases hall : w.itemValue &&& eventWAIT_FOR_ALL_BITS = 0
  · simp [hall]
  · simp [hall]

/-- The inline clear-on-exit test of the scan loop decodes the waiter's
clear-on-exit flag. -/
theorem clearCond_eq (w : Waiter) :
    ((w.itemValue &&& eventEVENT_BITS_CONTROL_BYTES) &&&
        eventCLEAR_EVENTS_ON_EXIT_BIT ≠ 0) ↔ waiterClearOnExit w = true := by
  rw [Nat.and_assoc, control_and_clear]
  simp [waiterClearOnExit]

/-- One step of the scan loop, restated through the decoded waiter fields. -/
theorem prvSetBitsScan_cons (bits acc : Nat) (w : Waiter) (rest : List Waiter) :
    prvSetBitsScan bits acc (w :: rest) =
      if waiterMatches bits w then
        (let acc2 := if waiterClearOnExit w then acc ||| waiterWaitMask w else acc
         let r := prvSetBitsScan bits acc2 rest
         (r.1, (w, bits ||| eventUNBLOCKED_DUE_TO_BIT_SET) :: r.2.1, r.2.2))
      else
        (let r := prvSetBitsScan bits acc rest
         (w :: r.1, r.2.1, r.2.2)) := by
  simp only [prvSetBitsScan]
  simp only [matchCond_eq]
  by_cases hm : waiterMatches bits w = true
  · simp only [hm, if_pos rfl]
    by_cases hc : waiterClearOnExit w = true
    · rw [if_pos (clearCond_eq w |>.mpr hc), if_pos hc, waiterWaitMask]
    · rw [if_neg (fun h => hc ((clearCond_eq w).mp h)), if_neg hc]
  · simp [hm]

/-- The scan loop computes the filter/map/fold characterization: matching
waiters are removed in list order with outcome `bits ||| marker`, the others
stay, and the clear masks of matching clear-on-exit waiters accumulate. -/
theorem prvSetBitsScan_eq (bits : Nat) (ws : List Waiter) (acc : Nat) :
    prvSetBitsScan bits acc ws =
      (ws.filter (fun w => !waiterMatches bits w),
       (ws.filter (fun w => waiterMatches bits w)).map
         (fun w => (w, bits ||| eventUNBLOCKED_DUE_TO_BIT_SET)),
       (ws.filter (fun w => waiterMatches bits w && waiterClearOnExit w)).foldl
         (fun a w => a ||| waiterWaitMask w) acc) := by
  induction ws generalizing acc with
  | nil => simp [prvSetBitsScan]
  | cons w rest ih =>
    rw [prvSetBitsScan_cons]
    by_cases hm : waiterMatches bits w = true
    · by_cases hc : waiterClearOnExit w = true
      · simp [hm, hc, ih, List.filter]
      · simp [hm, hc, ih, List.filter]
    · simp [hm, ih, List.filter]

/-- C1: for every event group and every `uxBitsToSet` disjoint from the
control region, `xEventGroupSetBits` ORs the bits in, wakes in list order
exactly the waiters whose decoded ANY/ALL condition holds against the updated
bits, each with outcome `updatedBits ||| eventUNBLOCKED_DUE_TO_BIT_SET`; the
wait masks of woken clear-on-exit waiters accumulate and are cleared only
after the whole pass, and the post-clear value is both stored and returned. -/
theorem xEventGroupSetBits_spec (eg : EventGroup) (uxBitsToSet : Nat)
    (_hctl : uxBitsToSet &&& eventEVENT_BITS_CONTROL_BYTES = 0) :
    xEventGroupSetBits eg uxBitsToSet =
      (let u := eg.uxEventBits ||| uxBitsToSet
       ({ eg with
           uxEventBits := u &&& cNot (pendingClearOf u eg.xTasksWaitingForBits),
           xTasksWaitingForBits :=
             eg.xTasksWaitingForBits.filter (fun w => !waiterMatches u w) },
        (eg.xTasksWaitingForBits.filter (fun w => waiterMatches u w)).map
          (fun w => (w, u ||| eventUNBLOCKED_DUE_TO_BIT_SET)),
        u &&& cNot (pendingClearOf u eg.xTasksWaitingForBits))) := by
  simp only [xEventGroupSetBits, pendingClearOf,
    prvSetBitsScan_eq (eg.uxEventBits ||| uxBitsToSet) eg.xTasksWaitingForBits 0]

/-- Witness for C1: group bits `0b01`, one ALL-waiter on `0b110` with
clear-on-exit, one ANY-waiter on `0b100` without; setting `0b110` wakes both
with outcome `0b111 ||| marker` and then clears `0b110`. -/
theorem xEventGroupSetBits_spec_witness :
    xEventGroupSetBits
        ⟨1, [⟨6 ||| eventWAIT_FOR_ALL_BITS ||| eventCLEAR_EVENTS_ON_EXIT_BIT⟩,
             ⟨4⟩], false⟩ 6 =
      (let u := (1 : Nat) ||| 6
       let ws : List Waiter :=
         [⟨6 ||| eventWAIT_FOR_ALL_BITS ||| eventCLEAR_EVENTS_ON_EXIT_BIT⟩, ⟨4⟩]
       ({ uxEventBits := u &&& cNot (pendingClearOf u ws),
          xTasksWaitingForBits := ws.filter (fun w => !waiterMatches u w),
          ucStaticallyAllocated := false },
        (ws.filter (fun w => waiterMatches u w)).map
          (fun w => (w, u ||| eventUNBLOCKED_DUE_TO_BIT_SET)),
        u &&& cNot (pendingClearOf u ws))) :=
  xEventGroupSetBits_spec
    ⟨1, [⟨6 ||| eventWAIT_FOR_ALL_BITS ||| eventCLEAR_EVENTS_ON_EXIT_BIT⟩,
         ⟨4⟩], false⟩ 6 (by decide)

/-- How a call of `xEventGroupWaitBits` / `xEventGroupSync` leaves the
suspension region: resolved immediately with a return value, returned at once
as timed out (`xTimeoutOccurred = pdTRUE`), or blocked with the packed value
stored in the task's event list item. -/
inductive WaitEntry where
  | immediate (uxReturn : Nat) : WaitEntry
  | timedOutNow (uxReturn : Nat) : WaitEntry
  | blocked (itemValue : Nat) : WaitEntry
deriving DecidableEq, Repr

/-- The `EventBits_t` value the C function returns for a non-blocking entry
(on the blocked path the C code overwrites the placeholder 0 after resuming). -/
def WaitEntry.uxReturnValue : WaitEntry → Nat
  | .immediate r => r
  | .timedOutNow r => r
  | .blocked _ => 0

/-- The internal `xTimeoutOccurred` flag as it stands when the suspension
region is left (it is reported only to the trace macro, not returned). -/
def WaitEntry.xTimeoutOccurred : WaitEntry → Bool
  | .timedOutNow _ => true
  | _ => false

/-- The first, suspended section of `xEventGroupWaitBits`: evaluate the wait
condition on the bits read at entry; on success optionally clear the wanted
bits; with a zero timeout return the read bits marked timed out; otherwise
pack the control flags and append the caller to `xTasksWaitingForBits`. -/
def xEventGroupWaitBitsEntry (eg : EventGroup) (uxBitsToWaitFor : Nat)
    (xClearOnExit xWaitForAllBits : Bool) (xTicksToWait : Nat) :
    EventGroup × WaitEntry :=
  let uxCurrentEventBits := eg.uxEventBits
  if prvTestWaitCondition uxCurrentEventBits uxBitsToWaitFor xWaitForAllBits then
    (if xClearOnExit then
       { eg with uxEventBits := eg.uxEventBits &&& cNot uxBitsToWaitFor }
     else eg,
     .immediate uxCurrentEventBits)
  else if xTicksToWait = 0 then
    (eg, .timedOutNow uxCurrentEventBits)
  else
    let uxControlBits :=
      (if xClearOnExit then eventCLEAR_EVENTS_ON_EXIT_BIT else 0) |||
      (if xWaitForAllBits then eventWAIT_FOR_ALL_BITS else 0)
    ({ eg with xTasksWaitingForBits :=
        eg.xTasksWaitingForBits ++ [⟨uxBitsToWaitFor ||| uxControlBits⟩] },
     .blocked (uxBitsToWaitFor ||| uxControlBits))

/-- The post-resume section of `xEventGroupWaitBits` (`xTicksToWait ≠ 0`
path): `uxResumeValue` is what `uxTaskResetEventItemValue` hands back.  If
the `eventUNBLOCKED_DUE_TO_BIT_SET` marker is absent, re-read the bits inside
a critical section, re-run the wait condition, clear the wanted bits when it
holds and clear-on-exit was requested, and mark the call timed out; either
way strip the control bytes from the returned value.
Result: (updated group, returned value, `xTimeoutOccurred`). -/
def xEventGroupWaitBitsResume (eg : EventGroup) (uxBitsToWaitFor : Nat)
    (xClearOnExit xWaitForAllBits : Bool) (uxResumeValue : Nat) :
    EventGroup × Nat × Bool :=
  if uxResumeValue &&& eventUNBLOCKED_DUE_TO_BIT_SET = 0 then
    let uxReturn := eg.uxEventBits
    let eg2 :=
      if prvTestWaitCondition uxReturn uxBitsToWaitFor xWaitForAllBits then
        (if xClearOnExit then
           { eg with uxEventBits := eg.uxEventBits &&& cNot uxBitsToWaitFor }
         else eg)
      else eg
    (eg2, uxReturn &&& cNot eventEVENT_BITS_CONTROL_BYTES, true)
  else
    (eg, uxResumeValue &&& cNot eventEVENT_BITS_CONTROL_BYTES, false)

/-- C2: for a non-zero wanted mask disjoint from the control region, if the
wait condition already holds on the bits read at entry the call resolves
immediately with that read value, clearing the wanted bits exactly when
clear-on-exit is requested; otherwise with a zero timeout it returns the read
value unchanged, leaves the group untouched, and counts as timed out.  In
both cases nothing is appended to the waiter list. -/
theorem xEventGroupWaitBitsEntry_spec (eg : EventGroup) (uxBitsToWaitFor : Nat)
    (xClearOnExit xWaitForAllBits : Bool) (xTicksToWait : Nat)
    (_hnz : uxBitsToWaitFor ≠ 0)
    (_hctl : uxBitsToWaitFor &&& eventEVENT_BITS_CONTROL_BYTES = 0) :
    (prvTestWaitCondition eg.uxEventBits uxBitsToWaitFor xWaitForAllBits = true →
      xEventGroupWaitBitsEntry eg uxBitsToWaitFor xClearOnExit xWaitForAllBits
          xTicksToWait =
        ({ eg with uxEventBits :=
             if xClearOnExit then eg.uxEventBits &&& cNot uxBitsToWaitFor
             else eg.uxEventBits },
         .immediate eg.uxEventBits)) ∧
    (prvTestWaitCondition eg.uxEventBits uxBitsToWaitFor xWaitForAllBits = false →
      xTicksToWait = 0 →
      xEventGroupWaitBitsEntry eg uxBitsToWaitFor xClearOnExit xWaitForAllBits
          xTicksToWait = (eg, .timedOutNow eg.uxEventBits)) := by
  constructor
  · intro hmet
    unfold xEventGroupWaitBitsEntry
    rw [if_pos hmet]
    cases xClearOnExit <;> simp
  · intro hnot h0
    unfold xEventGroupWaitBitsEntry
    rw [if_neg (by simp [hnot]), if_pos h0]

/-- Witness for C2, the spec's end-to-end scenario: bits `0b100`, waiting for
`0b001` in ANY mode with zero timeout returns `0b100` timed out and leaves the
group unchanged. -/
theorem xEventGroupWaitBitsEntry_spec_witness :
    (prvTestWaitCondition (EventGroup.mk 4 [] false).uxEventBits 1 false = true →
      xEventGroupWaitBitsEntry ⟨4, [], false⟩ 1 false false 0 =
        ({ EventGroup.mk 4 [] false with uxEventBits :=
             if false then (EventGroup.mk 4 [] false).uxEventBits &&& cNot 1
             else (EventGroup.mk 4 [] false).uxEventBits },
         .immediate (EventGroup.mk 4 [] false).uxEventBits)) ∧
    (prvTestWaitCondition (EventGroup.mk 4 [] false).uxEventBits 1 false = false →
      (0 : Nat) = 0 →
      xEventGroupWaitBitsEntry ⟨4, [], false⟩ 1 false false 0 =
        (⟨4, [], false⟩, .timedOutNow (EventGroup.mk 4 [] false).uxEventBits)) :=
  xEventGroupWaitBitsEntry_spec ⟨4, [], false⟩ 1 false false 0
    (by decide) (by decide)

/-- C4: a blocked wait that resumes without the
`eventUNBLOCKED_DUE_TO_BIT_SET` marker re-reads the group bits, clears the
wanted bits exactly when the re-run wait condition holds and clear-on-exit was
requested, returns the re-read bits with the control bytes stripped, counts as
timed out, and leaves the waiter list untouched. -/
theorem xEventGroupWaitBitsResume_spec (eg : EventGroup) (uxBitsToWaitFor : Nat)
    (xClearOnExit xWaitForAllBits : Bool) (uxResumeValue : Nat)
    (hmark : uxResumeValue &&& eventUNBLOCKED_DUE_TO_BIT_SET = 0) :
    xEventGroupWaitBitsResume eg uxBitsToWaitFor xClearOnExit xWaitForAllBits
        uxResumeValue =
      ({ eg with uxEventBits :=
           if (prvTestWaitCondition eg.uxEventBits uxBitsToWaitFor
                xWaitForAllBits && xClearOnExit) then
             eg.uxEventBits &&& cNot uxBitsToWaitFor
           else eg.uxEventBits },
       eg.uxEventBits &&& cNot eventEVENT_BITS_CONTROL_BYTES, true) := by
  unfold xEventGroupWaitBitsResume
  rw [if_pos hmark]
  by_cases hmet : prvTestWaitCondition eg.uxEventBits uxBitsToWaitFor
      xWaitForAllBits = true
  · cases hc : xClearOnExit <;> simp [hmet, hc]
  · simp only [Bool.not_eq_true] at hmet
    simp [hmet]

/-- Witness for C4: group bits `0b11`, waiting for `0b11` in ALL mode with
clear-on-exit, resumed by timeout (resume value 0): the re-check succeeds, the
bits are cleared, the call returns `0b11` and is timed out. -/
theorem xEventGroupWaitBitsResume_spec_witness :
    xEventGroupWaitBitsResume ⟨3, [], false⟩ 3 true true 0 =
      ({ EventGroup.mk 3 [] false with uxEventBits :=
           if (prvTestWaitCondition (EventGroup.mk 3 [] false).uxEventBits 3
                true && true) then
             (EventGroup.mk 3 [] false).uxEventBits &&& cNot 3
           else (EventGroup.mk 3 [] false).uxEventBits },
       (EventGroup.mk 3 [] false).uxEventBits &&&
         cNot eventEVENT_BITS_CONTROL_BYTES, true) :=
  xEventGroupWaitBitsResume_spec ⟨3, [], false⟩ 3 true true 0 (by decide)

/-- The suspended section of `xEventGroupSync`: capture the original bits,
run the full `xEventGroupSetBits` step inside the same suspension region, then
test the barrier against `uxOriginalBitValue ||| uxBitsToSet`.  On success
clear the barrier bits and return that value; otherwise block with ALL mode
and clear-on-exit forced on, or time out at once if no ticks remain.
Result: (updated group, waiters woken by the set step, entry outcome). -/
def xEventGroupSyncEntry (eg : EventGroup) (uxBitsToSet uxBitsToWaitFor : Nat)
    (xTicksToWait : Nat) : EventGroup × List (Waiter × Nat) × WaitEntry :=
  let uxOriginalBitValue := eg.uxEventBits
  let s := xEventGroupSetBits eg uxBitsToSet
  if (uxOriginalBitValue ||| uxBitsToSet) &&& uxBitsToWaitFor = uxBitsToWaitFor then
    ({ s.1 with uxEventBits := s.1.uxEventBits &&& cNot uxBitsToWaitFor },
     s.2.1, .immediate (uxOriginalBitValue ||| uxBitsToSet))
  else if xTicksToWait ≠ 0 then
    ({ s.1 with xTasksWaitingForBits := s.1.xTasksWaitingForBits ++
        [⟨uxBitsToWaitFor ||| eventCLEAR_EVENTS_ON_EXIT_BIT |||
           eventWAIT_FOR_ALL_BITS⟩] },
     s.2.1, .blocked (uxBitsToWaitFor ||| eventCLEAR_EVENTS_ON_EXIT_BIT |||
       eventWAIT_FOR_ALL_BITS))
  else
    (s.1, s.2.1, .timedOutNow s.1.uxEventBits)

/-- The post-resume section of `xEventGroupSync`: like the wait-bits resume,
but the timed-out re-check is the bare ALL test and the clearing is
unconditional on that test (rendezvous always consumes its barrier bits). -/
def xEventGroupSyncResume (eg : EventGroup) (uxBitsToWaitFor : Nat)
    (uxResumeValue : Nat) : EventGroup × Nat × Bool :=
  if uxResumeValue &&& eventUNBLOCKED_DUE_TO_BIT_SET = 0 then
    let uxReturn := eg.uxEventBits
    let eg2 :=
      if uxReturn &&& uxBitsToWaitFor = uxBitsToWaitFor then
        { eg with uxEventBits := eg.uxEventBits &&& cNot uxBitsToWaitFor }
      else eg
    (eg2, uxReturn &&& cNot eventEVENT_BITS_CONTROL_BYTES, true)
  else
    (eg, uxResumeValue &&& cNot eventEVENT_BITS_CONTROL_BYTES, false)

/-- Bits that survive an extra masking step cannot gain: if all of `w` is in
`u &&& v`, then all of `w` is in `u`. -/
theorem and_eq_of_and_and_eq {u v w : Nat} (h : (u &&& v) &&& w = w) :
    u &&& w = w := by
  apply Nat.eq_of_testBit_eq
  intro i
  have hi := congrArg (fun t => t.testBit i) h
  simp only [Nat.testBit_and] at hi ⊢
  cases hu : u.testBit i <;> cases hv : v.testBit i <;>
    cases hw : w.testBit i <;> simp_all

/-- C3: for a non-zero barrier mask disjoint from the control region, after
the Set-Bits step performed inside the same suspension region: if
`(before ||| toSet) &&& wanted = wanted` the call does not block, clears the
barrier bits from the group and returns `before ||| toSet`; otherwise, with a
non-zero timeout, it blocks exactly as Wait for Bits does on the post-set
group with ALL mode and clear-on-exit forced on, and its resume step is
exactly the Wait-for-Bits resume with those two flags. -/
theorem xEventGroupSyncEntry_spec (eg : EventGroup)
    (uxBitsToSet uxBitsToWaitFor xTicksToWait : Nat)
    (_hnz : uxBitsToWaitFor ≠ 0)
    (_hctl : uxBitsToWaitFor &&& eventEVENT_BITS_CONTROL_BYTES = 0) :
    ((eg.uxEventBits ||| uxBitsToSet) &&& uxBitsToWaitFor = uxBitsToWaitFor →
      xEventGroupSyncEntry eg uxBitsToSet uxBitsToWaitFor xTicksToWait =
        ({ (xEventGroupSetBits eg uxBitsToSet).1 with uxEventBits :=
             ((xEventGroupSetBits eg uxBitsToSet).1.uxEventBits &&&
               cNot uxBitsToWaitFor) },
         (xEventGroupSetBits eg uxBitsToSet).2.1,
         .immediate (eg.uxEventBits ||| uxBitsToSet))) ∧
    ((eg.uxEventBits ||| uxBitsToSet) &&& uxBitsToWaitFor ≠ uxBitsToWaitFor →
      xTicksToWait ≠ 0 →
      xEventGroupSyncEntry eg uxBitsToSet uxBitsToWaitFor xTicksToWait =
        ((xEventGroupWaitBitsEntry (xEventGroupSetBits eg uxBitsToSet).1
            uxBitsToWaitFor true true xTicksToWait).1,
         (xEventGroupSetBits eg uxBitsToSet).2.1,
         (xEventGroupWaitBitsEntry (xEventGroupSetBits eg uxBitsToSet).1
            uxBitsToWaitFor true true xTicksToWait).2)) ∧
    (∀ eg2 uxResumeValue,
      xEventGroupSyncResume eg2 uxBitsToWaitFor uxResumeValue =
        xEventGroupWaitBitsResume eg2 uxBitsToWaitFor true true
          uxResumeValue) := by
  refine ⟨fun hbar => ?_, fun hbar ht => ?_, fun eg2 rv => ?_⟩
  · unfold xEventGroupSyncEntry
    rw [if_pos hbar]
  · have hbits : (xEventGroupSetBits eg uxBitsToSet).1.uxEventBits =
        (eg.uxEventBits ||| uxBitsToSet) &&&
          cNot (prvSetBitsScan (eg.uxEventBits ||| uxBitsToSet) 0
            eg.xTasksWaitingForBits).2.2 := rfl
    have hnotmet : prvTestWaitCondition
        (xEventGroupSetBits eg uxBitsToSet).1.uxEventBits uxBitsToWaitFor
          true = false := by
      simp only [prvTestWaitCondition, if_neg (by simp : ¬ (true = false)),
        decide_eq_false_iff_not]
      intro hall
      exact hbar (and_eq_of_and_and_eq (hbits ▸ hall))
    unfold xEventGroupSyncEntry xEventGroupWaitBitsEntry
    rw [if_neg hbar, if_pos ht, if_neg (by simp [hnotmet]),
      if_neg (by exact ht)]
    simp [Nat.or_assoc]
  · unfold xEventGroupSyncResume xEventGroupWaitBitsResume
    by_cases hm : rv &&& eventUNBLOCKED_DUE_TO_BIT_SET = 0
    · rw [if_pos hm, if_pos hm]
      by_cases hall : eg2.uxEventBits &&& uxBitsToWaitFor = uxBitsToWaitFor
      · simp [prvTestWaitCondition, hall]
      · simp [prvTestWaitCondition, hall]
    · rw [if_neg hm, if_neg hm]

/-- Witness for C3: two cooperating rendezvous calls on barrier `0b11`.
The instantiation has bits `0b01` already set, contributes `0b10`, and needs
no blocking; the hypotheses of the blocked branch and the resume equivalence
are exercised at `ticksToWait = 5`. -/
theorem xEventGroupSyncEntry_spec_witness :
    (((1 : Nat) ||| 2) &&& 3 = 3 →
      xEventGroupSyncEntry ⟨1, [], false⟩ 2 3 5 =
        ({ (xEventGroupSetBits ⟨1, [], false⟩ 2).1 with uxEventBits :=
             (xEventGroupSetBits ⟨1, [], false⟩ 2).1.uxEventBits &&& cNot 3 },
         (xEventGroupSetBits ⟨1, [], false⟩ 2).2.1,
         .immediate ((1 : Nat) ||| 2))) ∧
    (((1 : Nat) ||| 2) &&& 3 ≠ 3 → (5 : Nat) ≠ 0 →
      xEventGroupSyncEntry ⟨1, [], false⟩ 2 3 5 =
        ((xEventGroupWaitBitsEntry (xEventGroupSetBits ⟨1, [], false⟩ 2).1
            3 true true 5).1,
         (xEventGroupSetBits ⟨1, [], false⟩ 2).2.1,
         (xEventGroupWaitBitsEntry (xEventGroupSetBits ⟨1, [], false⟩ 2).1
            3 true true 5).2)) ∧
    (∀ eg2 uxResumeValue,
      xEventGroupSyncResume eg2 3 uxResumeValue =
        xEventGroupWaitBitsResume eg2 3 true true uxResumeValue) :=
  xEventGroupSyncEntry_spec ⟨1, [], false⟩ 2 3 5 (by decide) (by decide)

/-- The unblock-all loop of `vEventGroupDelete`: each waiter in turn is
removed with outcome `eventUNBLOCKED_DUE_TO_BIT_SET` (zero event bits, as the
group is vanishing). -/
def vEventGroupDeleteLoop : List Waiter → List (Waiter × Nat)
  | [] => []
  | w :: rest => (w, eventUNBLOCKED_DUE_TO_BIT_SET) :: vEventGroupDeleteLoop rest

/-- `vEventGroupDelete` (configuration with both allocation strategies
compiled in): force-wake every waiter, leave the list empty, and free the
storage exactly when the group was heap-allocated.
Result: (final group, woken waiters with outcomes, storage freed). -/
def vEventGroupDelete (eg : EventGroup) : EventGroup × List (Waiter × Nat) × Bool :=
  ({ eg with xTasksWaitingForBits := [] },
   vEventGroupDeleteLoop eg.xTasksWaitingForBits,
   !eg.ucStaticallyAllocated)

theorem vEventGroupDeleteLoop_eq (ws : List Waiter) :
    vEventGroupDeleteLoop ws =
      ws.map (fun w => (w, eventUNBLOCKED_DUE_TO_BIT_SET)) := by
  induction ws with
  | nil => rfl
  | cons w rest ih => simp [vEventGroupDeleteLoop, ih]

/-- C7: deleting a group with N waiters wakes all N in list order, each with
outcome exactly the `eventUNBLOCKED_DUE_TO_BIT_SET` marker — which carries no
user event bits — leaves the waiter list empty, and frees the storage if and
only if the group was heap-allocated. -/
theorem vEventGroupDelete_spec (eg : EventGroup) :
    (vEventGroupDelete eg).2.1 =
      eg.xTasksWaitingForBits.map (fun w => (w, eventUNBLOCKED_DUE_TO_BIT_SET)) ∧
    (vEventGroupDelete eg).2.1.length = eg.xTasksWaitingForBits.length ∧
    eventUNBLOCKED_DUE_TO_BIT_SET &&& cNot eventEVENT_BITS_CONTROL_BYTES = 0 ∧
    (vEventGroupDelete eg).1.xTasksWaitingForBits = [] ∧
    ((vEventGroupDelete eg).2.2 = true ↔ eg.ucStaticallyAllocated = false) := by
  refine ⟨vEventGroupDeleteLoop_eq eg.xTasksWaitingForBits, ?_, by decide, rfl, ?_⟩
  · simp [vEventGroupDelete, vEventGroupDeleteLoop_eq]
  · simp [vEventGroupDelete]

/-- A union of two control-free words is control-free. -/
theorem control_free_or {a b m : Nat} (ha : a &&& m = 0) (hb : b &&& m = 0) :
    (a ||| b) &&& m = 0 := by
  apply Nat.eq_of_testBit_eq
  intro i
  have hai := congrArg (fun t => t.testBit i) ha
  have hbi := congrArg (fun t => t.testBit i) hb
  simp only [Nat.testBit_and, Nat.testBit_or, Nat.zero_testBit] at *
  cases h1 : a.testBit i <;> cases h2 : b.testBit i <;>
    cases h3 : m.testBit i <;> simp_all

/-- Masking a control-free word keeps it control-free. -/
theorem control_free_and_left {a m : Nat} (b : Nat) (ha : a &&& m = 0) :
    (a &&& b) &&& m = 0 := by
  apply Nat.eq_of_testBit_eq
  intro i
  have hai := congrArg (fun t => t.testBit i) ha
  simp only [Nat.testBit_and, Nat.zero_testBit] at *
  cases h1 : a.testBit i <;> cases h2 : b.testBit i <;>
    cases h3 : m.testBit i <;> simp_all

/-- Stripping the control bytes (`x &&& cNot CONTROL`) leaves no control bit. -/
theorem control_free_strip (x : Nat) :
    (x &&& cNot eventEVENT_BITS_CONTROL_BYTES) &&&
      eventEVENT_BITS_CONTROL_BYTES = 0 := by
  apply Nat.eq_of_testBit_eq
  intro i
  have hc : eventEVENT_BITS_CONTROL_BYTES < 2 ^ 32 := by decide
  simp only [Nat.testBit_and, testBit_cNot hc i, Nat.zero_testBit]
  cases h1 : x.testBit i <;>
    cases h2 : eventEVENT_BITS_CONTROL_BYTES.testBit i <;> simp

/-- C6: under the asserted contract that user masks avoid the control-byte
region, every operation preserves `bits &&& CONTROL = 0` on the group's bit
word, and every `EventBits_t` value an entry or resume step hands back to the
caller has no control-region bit set (stripped on the blocking paths, absent
by the invariant on the non-blocking paths). -/
theorem controlRegion_invariant (eg : EventGroup)
    (hb : eg.uxEventBits &&& eventEVENT_BITS_CONTROL_BYTES = 0) :
    (∀ uxBitsToSet, uxBitsToSet &&& eventEVENT_BITS_CONTROL_BYTES = 0 →
      (xEventGroupSetBits eg uxBitsToSet).1.uxEventBits &&&
        eventEVENT_BITS_CONTROL_BYTES = 0 ∧
      (xEventGroupSetBits eg uxBitsToSet).2.2 &&&
        eventEVENT_BITS_CONTROL_BYTES = 0) ∧
    (∀ uxBitsToClear,
      (xEventGroupClearBits eg uxBitsToClear).1.uxEventBits &&&
        eventEVENT_BITS_CONTROL_BYTES = 0 ∧
      (xEventGroupClearBits eg uxBitsToClear).2 &&&
        eventEVENT_BITS_CONTROL_BYTES = 0) ∧
    (∀ uxBitsToWaitFor xClearOnExit xWaitForAllBits xTicksToWait,
      (xEventGroupWaitBitsEntry eg uxBitsToWaitFor xClearOnExit xWaitForAllBits
          xTicksToWait).1.uxEventBits &&& eventEVENT_BITS_CONTROL_BYTES = 0 ∧
      (xEventGroupWaitBitsEntry eg uxBitsToWaitFor xClearOnExit xWaitForAllBits
          xTicksToWait).2.uxReturnValue &&& eventEVENT_BITS_CONTROL_BYTES = 0) ∧
    (∀ uxBitsToWaitFor xClearOnExit xWaitForAllBits uxResumeValue,
      (xEventGroupWaitBitsResume eg uxBitsToWaitFor xClearOnExit
          xWaitForAllBits uxResumeValue).1.uxEventBits &&&
        eventEVENT_BITS_CONTROL_BYTES = 0 ∧
      (xEventGroupWaitBitsResume eg uxBitsToWaitFor xClearOnExit
          xWaitForAllBits uxResumeValue).2.1 &&&
        eventEVENT_BITS_CONTROL_BYTES = 0) ∧
    (∀ uxBitsToSet uxBitsToWaitFor xTicksToWait,
      uxBitsToSet &&& eventEVENT_BITS_CONTROL_BYTES = 0 →
      (xEventGroupSyncEntry eg uxBitsToSet uxBitsToWaitFor
          xTicksToWait).1.uxEventBits &&& eventEVENT_BITS_CONTROL_BYTES = 0 ∧
      (xEventGroupSyncEntry eg uxBitsToSet uxBitsToWaitFor
          xTicksToWait).2.2.uxReturnValue &&&
        eventEVENT_BITS_CONTROL_BYTES = 0) ∧
    (∀ uxBitsToWaitFor uxResumeValue,
      (xEventGroupSyncResume eg uxBitsToWaitFor
          uxResumeValue).1.uxEventBits &&& eventEVENT_BITS_CONTROL_BYTES = 0 ∧
      (xEventGroupSyncResume eg uxBitsToWaitFor uxResumeValue).2.1 &&&
        eventEVENT_BITS_CONTROL_BYTES = 0) := by
  have hset : ∀ s, s &&& eventEVENT_BITS_CONTROL_BYTES = 0 →
      (xEventGroupSetBits eg s).1.uxEventBits &&&
        eventEVENT_BITS_CONTROL_BYTES = 0 :=
    fun s hs => control_free_and_left _ (control_free_or hb hs)
  refine ⟨fun s hs => ⟨hset s hs, hset s hs⟩, ?_, ?_, ?_, ?_, ?_⟩
  · intro c
    exact ⟨control_free_and_left _ hb, hb⟩
  · intro w cOE wFA t
    unfold xEventGroupWaitBitsEntry
    by_cases hmet : prvTestWaitCondition eg.uxEventBits w wFA = true
    · cases cOE <;>
        simp [hmet, WaitEntry.uxReturnValue, hb, control_free_and_left]
    · simp only [Bool.not_eq_true] at hmet
      by_cases ht : t = 0
      · simp [hmet, ht, WaitEntry.uxReturnValue, hb]
      · simp [hmet, ht, WaitEntry.uxReturnValue, hb]
  · intro w cOE wFA rv
    unfold xEventGroupWaitBitsResume
    by_cases hmark : rv &&& eventUNBLOCKED_DUE_TO_BIT_SET = 0
    · by_cases hmet : prvTestWaitCondition eg.uxEventBits w wFA = true
      · cases cOE <;>
          simp [hmark, hmet, hb, control_free_and_left, control_free_strip]
      · simp only [Bool.not_eq_true] at hmet
        simp [hmark, hmet, hb, control_free_strip]
    · simp [hmark, control_free_strip, hb]
  · intro s w t hs
    unfold xEventGroupSyncEntry
    by_cases hbar : (eg.uxEventBits ||| s) &&& w = w
    · simp [hbar, WaitEntry.uxReturnValue, control_free_and_left _ (hset s hs),
        control_free_or hb hs]
    · by_cases ht : t ≠ 0
      · simp [hbar, ht, WaitEntry.uxReturnValue, hset s hs]
      · simp [hbar, ht, WaitEntry.uxReturnValue, hset s hs]
  · intro w rv
    unfold xEventGroupSyncResume
    by_cases hmark : rv &&& eventUNBLOCKED_DUE_TO_BIT_SET = 0
    · by_cases hall : eg.uxEventBits &&& w = w
      · simp [hmark, hall, hb, control_free_and_left, control_free_strip]
      · simp [hmark, hall, hb, control_free_strip]
    · simp [hmark, control_free_strip, hb]

/-- Witness for C6 at the group with bits `0b101` and one waiter. -/
theorem controlRegion_invariant_witness :
    (∀ uxBitsToSet, uxBitsToSet &&& eventEVENT_BITS_CONTROL_BYTES = 0 →
      (xEventGroupSetBits ⟨5, [⟨1⟩], true⟩ uxBitsToSet).1.uxEventBits &&&
        eventEVENT_BITS_CONTROL_BYTES = 0 ∧
      (xEventGroupSetBits ⟨5, [⟨1⟩], true⟩ uxBitsToSet).2.2 &&&
        eventEVENT_BITS_CONTROL_BYTES = 0) ∧
    (∀ uxBitsToClear,
      (xEventGroupClearBits ⟨5, [⟨1⟩], true⟩ uxBitsToClear).1.uxEventBits &&&
        eventEVENT_BITS_CONTROL_BYTES = 0 ∧
      (xEventGroupClearBits ⟨5, [⟨1⟩], true⟩ uxBitsToClear).2 &&&
        eventEVENT_BITS_CONTROL_BYTES = 0) ∧
    (∀ uxBitsToWaitFor xClearOnExit xWaitForAllBits xTicksToWait,
      (xEventGroupWaitBitsEntry ⟨5, [⟨1⟩], true⟩ uxBitsToWaitFor xClearOnExit
          xWaitForAllBits xTicksToWait).1.uxEventBits &&&
        eventEVENT_BITS_CONTROL_BYTES = 0 ∧
      (xEventGroupWaitBitsEntry ⟨5, [⟨1⟩], true⟩ uxBitsToWaitFor xClearOnExit
          xWaitForAllBits xTicksToWait).2.uxReturnValue &&&
        eventEVENT_BITS_CONTROL_BYTES = 0) ∧
    (∀ uxBitsToWaitFor xClearOnExit xWaitForAllBits uxResumeValue,
      (xEventGroupWaitBitsResume ⟨5, [⟨1⟩], true⟩ uxBitsToWaitFor xClearOnExit
          xWaitForAllBits uxResumeValue).1.uxEventBits &&&
        eventEVENT_BITS_CONTROL_BYTES = 0 ∧
      (xEventGroupWaitBitsResume ⟨5, [⟨1⟩], true⟩ uxBitsToWaitFor xClearOnExit
          xWaitForAllBits uxResumeValue).2.1 &&&
        eventEVENT_BITS_CONTROL_BYTES = 0) ∧
    (∀ uxBitsToSet uxBitsToWaitFor xTicksToWait,
      uxBitsToSet &&& eventEVENT_BITS_CONTROL_BYTES = 0 →
      (xEventGroupSyncEntry ⟨5, [⟨1⟩], true⟩ uxBitsToSet uxBitsToWaitFor
          xTicksToWait).1.uxEventBits &&& eventEVENT_BITS_CONTROL_BYTES = 0 ∧
      (xEventGroupSyncEntry ⟨5, [⟨1⟩], true⟩ uxBitsToSet uxBitsToWaitFor
          xTicksToWait).2.2.uxReturnValue &&&
        eventEVENT_BITS_CONTROL_BYTES = 0) ∧
    (∀ uxBitsToWaitFor uxResumeValue,
      (xEventGroupSyncResume ⟨5, [⟨1⟩], true⟩ uxBitsToWaitFor
          uxResumeValue).1.uxEventBits &&& eventEVENT_BITS_CONTROL_BYTES = 0 ∧
      (xEventGroupSyncResume ⟨5, [⟨1⟩], true⟩ uxBitsToWaitFor
          uxResumeValue).2.1 &&& eventEVENT_BITS_CONTROL_BYTES = 0) :=
  controlRegion_invariant ⟨5, [⟨1⟩], true⟩ (by decide)

/-- C9 counterexample: the timed-out indication is not a component of the
value `xEventGroupWaitBits` returns.  With bits `0b010`, waiting for `0b010`
(ANY, zero timeout) succeeds at once, while waiting for `0b001` times out,
yet both calls hand the caller exactly the same `EventBits_t` value `0b010`;
the internal `xTimeoutOccurred` flag differs but reaches only the trace
macro. -/
theorem waitBits_timeout_not_in_result :
    (xEventGroupWaitBitsEntry ⟨2, [], false⟩ 2 false false 0).2.uxReturnValue =
      (xEventGroupWaitBitsEntry ⟨2, [], false⟩ 1 false false 0).2.uxReturnValue ∧
    (xEventGroupWaitBitsEntry ⟨2, [], false⟩ 2 false false
        0).2.xTimeoutOccurred = false ∧
    (xEventGroupWaitBitsEntry ⟨2, [], false⟩ 1 false false
        0).2.xTimeoutOccurred = true := by
  decide

/-- C9 amended: `xEventGroupWaitBits` and `xEventGroupSync` compute a
timed-out indication internally — true exactly on the timeout paths — but
report it only to the trace macros; the caller receives the bit snapshot
alone (on the immediate timeout paths, exactly the bits read under
suspension). -/
theorem timeoutFlag_internal (eg : EventGroup) (uxBitsToWaitFor uxBitsToSet : Nat)
    (xClearOnExit xWaitForAllBits : Bool) (xTicksToWait uxResumeValue : Nat) :
    ((xEventGroupWaitBitsEntry eg uxBitsToWaitFor xClearOnExit xWaitForAllBits
        xTicksToWait).2.xTimeoutOccurred = true ↔
      (prvTestWaitCondition eg.uxEventBits uxBitsToWaitFor xWaitForAllBits =
        false ∧ xTicksToWait = 0)) ∧
    ((xEventGroupWaitBitsResume eg uxBitsToWaitFor xClearOnExit xWaitForAllBits
        uxResumeValue).2.2 = true ↔
      uxResumeValue &&& eventUNBLOCKED_DUE_TO_BIT_SET = 0) ∧
    ((xEventGroupSyncEntry eg uxBitsToSet uxBitsToWaitFor
        xTicksToWait).2.2.xTimeoutOccurred = true ↔
      ((eg.uxEventBits ||| uxBitsToSet) &&& uxBitsToWaitFor ≠ uxBitsToWaitFor ∧
        xTicksToWait = 0)) ∧
    ((xEventGroupSyncResume eg uxBitsToWaitFor uxResumeValue).2.2 = true ↔
      uxResumeValue &&& eventUNBLOCKED_DUE_TO_BIT_SET = 0) ∧
    ((xEventGroupWaitBitsEntry eg uxBitsToWaitFor xClearOnExit xWaitForAllBits
        xTicksToWait).2.xTimeoutOccurred = true →
      (xEventGroupWaitBitsEntry eg uxBitsToWaitFor xClearOnExit xWaitForAllBits
        xTicksToWait).2.uxReturnValue = eg.uxEventBits) := by
  refine ⟨?_, ?_, ?_, ?_, ?_⟩
  · unfold xEventGroupWaitBitsEntry
    by_cases hmet : prvTestWaitCondition eg.uxEventBits uxBitsToWaitFor
        xWaitForAllBits = true
    · cases hc : xClearOnExit <;>
        simp [hmet, WaitEntry.xTimeoutOccurred]
    · simp only [Bool.not_eq_true] at hmet
      by_cases ht : xTicksToWait = 0
      · simp [hmet, ht, WaitEntry.xTimeoutOccurred]
      · simp [hmet, ht, WaitEntry.xTimeoutOccurred]
  · unfold xEventGroupWaitBitsResume
    by_cases hmark : uxResumeValue &&& eventUNBLOCKED_DUE_TO_BIT_SET = 0
    · simp [hmark]
    · simp [hmark]
  · unfold xEventGroupSyncEntry
    by_cases hbar : (eg.uxEventBits ||| uxBitsToSet) &&& uxBitsToWaitFor =
        uxBitsToWaitFor
    · simp [hbar, WaitEntry.xTimeoutOccurred]
    · by_cases ht : xTicksToWait = 0
      · simp [hbar, ht, WaitEntry.xTimeoutOccurred]
      · simp [hbar, ht, WaitEntry.xTimeoutOccurred]
  · unfold xEventGroupSyncResume
    by_cases hmark : uxResumeValue &&& eventUNBLOCKED_DUE_TO_BIT_SET = 0
    · simp [hmark]
    · simp [hmark]
  · unfold xEventGroupWaitBitsEntry
    by_cases hmet : prvTestWaitCondition eg.uxEventBits uxBitsToWaitFor
        xWaitForAllBits = true
    · cases hc : xClearOnExit <;>
        simp [hmet, WaitEntry.xTimeoutOccurred]
    · simp only [Bool.not_eq_true] at hmet
      by_cases ht : xTicksToWait = 0
      · simp [hmet, ht, WaitEntry.xTimeoutOccurred, WaitEntry.uxReturnValue]
      · simp [hmet, ht, WaitEntry.xTimeoutOccurred]

/-- `x &&& (x &&& w) = x &&& w`. -/
theorem and_self_and (x w : Nat) : x &&& (x &&& w) = x &&& w := by
  rw [← Nat.and_assoc, Nat.and_self]

/-- A word containing all of `w` contains any further masking by `w`. -/
theorem and_absorb_of_superset {r w : Nat} (h : r &&& w = w) (y : Nat) :
    r &&& (y &&& w) = y &&& w := by
  apply Nat.eq_of_testBit_eq
  intro i
  have hi := congrArg (fun t => t.testBit i) h
  simp only [Nat.testBit_and] at hi ⊢
  cases h1 : r.testBit i <;> cases h2 : y.testBit i <;>
    cases h3 : w.testBit i <;> simp_all

/-- Stripping the control bytes does not remove any bit of `x &&& w` when
`w` avoids the control region and fits in the word. -/
theorem strip_keeps_wanted {w : Nat} (hw : w < 2 ^ 32)
    (hwc : w &&& eventEVENT_BITS_CONTROL_BYTES = 0) (x : Nat) :
    (x &&& cNot eventEVENT_BITS_CONTROL_BYTES) &&& (x &&& w) = x &&& w := by
  apply Nat.eq_of_testBit_eq
  intro i
  have hc : eventEVENT_BITS_CONTROL_BYTES < 2 ^ 32 := by decide
  have hi := congrArg (fun t => t.testBit i) hwc
  simp only [Nat.testBit_and, Nat.zero_testBit, testBit_cNot hc i] at hi ⊢
  by_cases hlt : i < 32
  · simp only [hlt, decide_True, Bool.true_and]
    cases h1 : x.testBit i <;> cases h2 : w.testBit i <;>
      cases h3 : eventEVENT_BITS_CONTROL_BYTES.testBit i <;> simp_all
  · have hwi : w.testBit i = false :=
      Nat.testBit_lt_two_pow
        (Nat.lt_of_lt_of_le hw (Nat.pow_le_pow_right (by omega) (by omega)))
    simp [hwi]

/-- C10: on each path where the waiting side itself clears bits — the
immediate-satisfaction path of the wait with clear-on-exit, the timed-out
re-check path with clear-on-exit, and the barrier-satisfied path of the sync
— the value handed to the caller is the snapshot read before the clearing,
and it still contains every bit that was just removed from the group. -/
theorem waiterSideClear_returns_preclear_snapshot :
    (∀ (eg : EventGroup) (uxBitsToWaitFor : Nat) (xWaitForAllBits : Bool)
        (xTicksToWait : Nat),
      prvTestWaitCondition eg.uxEventBits uxBitsToWaitFor xWaitForAllBits =
        true →
      (xEventGroupWaitBitsEntry eg uxBitsToWaitFor true xWaitForAllBits
          xTicksToWait).2.uxReturnValue = eg.uxEventBits ∧
      (xEventGroupWaitBitsEntry eg uxBitsToWaitFor true xWaitForAllBits
          xTicksToWait).1.uxEventBits =
        eg.uxEventBits &&& cNot uxBitsToWaitFor ∧
      (xEventGroupWaitBitsEntry eg uxBitsToWaitFor true xWaitForAllBits
          xTicksToWait).2.uxReturnValue &&&
          (eg.uxEventBits &&& uxBitsToWaitFor) =
        eg.uxEventBits &&& uxBitsToWaitFor) ∧
    (∀ (eg : EventGroup) (uxBitsToWaitFor : Nat) (xWaitForAllBits : Bool)
        (uxResumeValue : Nat),
      uxResumeValue &&& eventUNBLOCKED_DUE_TO_BIT_SET = 0 →
      prvTestWaitCondition eg.uxEventBits uxBitsToWaitFor xWaitForAllBits =
        true →
      uxBitsToWaitFor < 2 ^ 32 →
      uxBitsToWaitFor &&& eventEVENT_BITS_CONTROL_BYTES = 0 →
      (xEventGroupWaitBitsResume eg uxBitsToWaitFor true xWaitForAllBits
          uxResumeValue).2.1 =
        eg.uxEventBits &&& cNot eventEVENT_BITS_CONTROL_BYTES ∧
      (xEventGroupWaitBitsResume eg uxBitsToWaitFor true xWaitForAllBits
          uxResumeValue).1.uxEventBits =
        eg.uxEventBits &&& cNot uxBitsToWaitFor ∧
      (xEventGroupWaitBitsResume eg uxBitsToWaitFor true xWaitForAllBits
          uxResumeValue).2.1 &&& (eg.uxEventBits &&& uxBitsToWaitFor) =
        eg.uxEventBits &&& uxBitsToWaitFor) ∧
    (∀ (eg : EventGroup) (uxBitsToSet uxBitsToWaitFor xTicksToWait : Nat),
      (eg.uxEventBits ||| uxBitsToSet) &&& uxBitsToWaitFor = uxBitsToWaitFor →
      (xEventGroupSyncEntry eg uxBitsToSet uxBitsToWaitFor
          xTicksToWait).2.2.uxReturnValue = eg.uxEventBits ||| uxBitsToSet ∧
      (xEventGroupSyncEntry eg uxBitsToSet uxBitsToWaitFor
          xTicksToWait).1.uxEventBits =
        (xEventGroupSetBits eg uxBitsToSet).1.uxEventBits &&&
          cNot uxBitsToWaitFor ∧
      (xEventGroupSyncEntry eg uxBitsToSet uxBitsToWaitFor
          xTicksToWait).2.2.uxReturnValue &&&
          ((xEventGroupSetBits eg uxBitsToSet).1.uxEventBits &&&
            uxBitsToWaitFor) =
        (xEventGroupSetBits eg uxBitsToSet).1.uxEventBits &&&
          uxBitsToWaitFor) := by
  refine ⟨?_, ?_, ?_⟩
  · intro eg w wFA t hmet
    have he : xEventGroupWaitBitsEntry eg w true wFA t =
        ({ eg with uxEventBits := eg.uxEventBits &&& cNot w },
         .immediate eg.uxEventBits) := by
      unfold xEventGroupWaitBitsEntry
      simp [hmet]
    rw [he]
    exact ⟨rfl, rfl, and_self_and _ _⟩
  · intro eg w wFA rv hmark hmet hw hwc
    have he : xEventGroupWaitBitsResume eg w true wFA rv =
        ({ eg with uxEventBits := eg.uxEventBits &&& cNot w },
         eg.uxEventBits &&& cNot eventEVENT_BITS_CONTROL_BYTES, true) := by
      unfold xEventGroupWaitBitsResume
      simp [hmark, hmet]
    rw [he]
    exact ⟨rfl, rfl, strip_keeps_wanted hw hwc _⟩
  · intro eg s w t hbar
    have he : xEventGroupSyncEntry eg s w t =
        ({ (xEventGroupSetBits eg s).1 with uxEventBits :=
             ((xEventGroupSetBits eg s).1.uxEventBits &&& cNot w) },
         (xEventGroupSetBits eg s).2.1,
         .immediate (eg.uxEventBits ||| s)) := by
      unfold xEventGroupSyncEntry
      simp [hbar]
    rw [he]
    exact ⟨rfl, rfl, and_absorb_of_superset hbar _⟩

/-- Witness for C10: the wait paths at bits `0b11` waiting on `0b01` (ANY),
the timed-out re-check at resume value 0, and the sync barrier at bits
`0b01`, contribution `0b10`, barrier `0b11`. -/
theorem waiterSideClear_witness :
    ((xEventGroupWaitBitsEntry ⟨3, [], false⟩ 1 true false 0).2.uxReturnValue =
        (EventGroup.mk 3 [] false).uxEventBits ∧
      (xEventGroupWaitBitsEntry ⟨3, [], false⟩ 1 true false 0).1.uxEventBits =
        (EventGroup.mk 3 [] false).uxEventBits &&& cNot 1 ∧
      (xEventGroupWaitBitsEntry ⟨3, [], false⟩ 1 true false 0).2.uxReturnValue
          &&& ((EventGroup.mk 3 [] false).uxEventBits &&& 1) =
        (EventGroup.mk 3 [] false).uxEventBits &&& 1) ∧
    ((xEventGroupWaitBitsResume ⟨3, [], false⟩ 1 true false 0).2.1 =
        (EventGroup.mk 3 [] false).uxEventBits &&&
          cNot eventEVENT_BITS_CONTROL_BYTES ∧
      (xEventGroupWaitBitsResume ⟨3, [], false⟩ 1 true false 0).1.uxEventBits =
        (EventGroup.mk 3 [] false).uxEventBits &&& cNot 1 ∧
      (xEventGroupWaitBitsResume ⟨3, [], false⟩ 1 true false 0).2.1 &&&
          ((EventGroup.mk 3 [] false).uxEventBits &&& 1) =
        (EventGroup.mk 3 [] false).uxEventBits &&& 1) ∧
    ((xEventGroupSyncEntry ⟨1, [], false⟩ 2 3 0).2.2.uxReturnValue =
        (EventGroup.mk 1 [] false).uxEventBits ||| 2 ∧
      (xEventGroupSyncEntry ⟨1, [], false⟩ 2 3 0).1.uxEventBits =
        (xEventGroupSetBits ⟨1, [], false⟩ 2).1.uxEventBits &&& cNot 3 ∧
      (xEventGroupSyncEntry ⟨1, [], false⟩ 2 3 0).2.2.uxReturnValue &&&
          ((xEventGroupSetBits ⟨1, [], false⟩ 2).1.uxEventBits &&& 3) =
        (xEventGroupSetBits ⟨1, [], false⟩ 2).1.uxEventBits &&& 3) :=
  ⟨waiterSideClear_returns_preclear_snapshot.1 ⟨3, [], false⟩ 1 false 0
      (by decide),
   waiterSideClear_returns_preclear_snapshot.2.1 ⟨3, [], false⟩ 1 false 0
      (by decide) (by decide) (by decide) (by decide),
   waiterSideClear_returns_preclear_snapshot.2.2 ⟨1, [], false⟩ 2 3 0
      (by decide)⟩

end EventGroups
